import Mathlib

/-!
Shallow embedding of the realm-status fetch–aggregate–sort pipeline of
`src/components/RealmStatusDisplay.jsx` (the `fetchRealmData` effect body, the
flattening step, and the `sortedRealms` comparator), together with proofs of
the specification claims about it.

Modelling conventions:
* JavaScript strings are Lean `String`s; `String.split` with a one-character
  separator is modelled by `splitOnChar` over the character list, and
  `toLowerCase` by mapping `Char.toLower` over the characters.
* A JSON value that may fail a runtime type test is modelled by an explicit
  sum (`Option String` for an index entry's `href`, `RealmsField` for a
  payload's `realms` field, `Option` for a detail payload's `status` and
  `population` objects and a member's `type` object): the `none` / non-array
  constructors stand for values on which the code's guard (or a thrown
  `TypeError`) fires. In particular a detail response can resolve
  successfully with a malformed body; the flattening loop dereferences
  `connectedRealm.status.type`, `connectedRealm.population.type` and
  `individualRealm.type.name` without any guard, so the flattening step is
  fallible (`Except`) and its thrown `TypeError` escapes to the outer catch.
* `axios` results are modelled environment-style: the index response and the
  per-id detail responses are inputs (`Except JsError _`) of the pipeline
  function, `.error` standing for a rejected promise (non-2xx, network
  failure, …).
* A thrown-and-caught exception is modelled by `Except`; the `try/catch`
  around the whole body corresponds to the `match … | .error …` branches of
  `fetchRealmData`.
* `Array.prototype.sort` with a comparator `c` (stable per the ECMAScript
  specification) is modelled by `List.insertionSort` with the reflexive
  relation `c a b ≤ 0`, which produces the same stable result for the
  consistent comparators used here.
-/

deriving instance DecidableEq for Except

/-! ### Data model: payloads and rows -/

/-- The `status` object of a connected-realm detail payload. -/
structure StatusField where
  type : String
  name : String
deriving DecidableEq, Repr

/-- The `population` object of a connected-realm detail payload. -/
structure PopulationField where
  type : String
  name : String
deriving DecidableEq, Repr

/-- The `type` object nested in an individual realm of the payload. -/
structure RealmTypeField where
  name : String
deriving DecidableEq, Repr

/-- One entry of the `realms` array of a detail payload. `type := none` models
a member with no `type` object, on which `individualRealm.type.name` throws. -/
structure IndividualRealm where
  name : String
  type : Option RealmTypeField
deriving DecidableEq, Repr

/-- The `realms` field of a detail payload. The code guards this field with
`connectedRealm.realms && Array.isArray(connectedRealm.realms)`; `absent`
models a missing/falsy field and `nonArray` a present non-array value, both of
which fail that guard. -/
inductive RealmsField where
  | absent
  | nonArray
  | arr (realms : List IndividualRealm)
deriving DecidableEq, Repr

/-- An error value reaching a `catch` block; only its message is observable. -/
structure JsError where
  message : String
deriving DecidableEq, Repr

/-- One connected-realm detail payload (`response.data` of a detail fetch).
A fetch can resolve successfully with a malformed body: `status := none`
(resp. `population := none`) models a payload with no `status` (resp.
`population`) object, on which the flattening loop's unguarded
`connectedRealm.status.type` (resp. `.population.type`) dereference throws. -/
structure ClusterPayload where
  id : Nat
  status : Option StatusField
  population : Option PopulationField
  has_queue : Bool
  realms : RealmsField
deriving DecidableEq, Repr

/-- One flattened display row, as pushed onto `flattenedRealms`. -/
structure RealmRow where
  connectedRealmId : Nat
  realmName : String
  statusType : String
  statusName : String
  populationType : String
  populationName : String
  hasQueue : Bool
  realmType : String
deriving DecidableEq, Repr

/-- The members list the flattening loop actually iterates over: the payload's
`realms` array when the `Array.isArray` guard passes, nothing otherwise. -/
def RealmsField.toList : RealmsField → List IndividualRealm
  | .arr realms => realms
  | _ => []

/-- The row object pushed for one individual realm of one connected realm:
the object literal at the centre of the flattening loop. Its properties are
evaluated top to bottom, so the first unguarded dereference of a missing
object — `connectedRealm.status.type`, then `connectedRealm.population.type`,
then `individualRealm.type.name` — throws a `TypeError`. -/
def rowOfRealm (connectedRealm : ClusterPayload) (individualRealm : IndividualRealm) :
    Except JsError RealmRow :=
  match connectedRealm.status with
  | none => .error ⟨"TypeError: Cannot read properties of undefined (reading 'type')"⟩
  | some status =>
    match connectedRealm.population with
    | none => .error ⟨"TypeError: Cannot read properties of undefined (reading 'type')"⟩
    | some population =>
      match individualRealm.type with
      | none => .error ⟨"TypeError: Cannot read properties of undefined (reading 'name')"⟩
      | some realmTypeObj =>
        .ok { connectedRealmId := connectedRealm.id
              realmName := individualRealm.name
              statusType := status.type
              statusName := status.name
              populationType := population.type
              populationName := population.name
              hasQueue := connectedRealm.has_queue
              realmType := realmTypeObj.name }

/-- The inner `forEach` over one cluster's members: rows are pushed in order,
and the first throwing dereference aborts the whole loop (the partially
pushed accumulator is never observed, since the exception escapes before
`setAllRealmsForDisplay`). -/
def rowsOfMembers (connectedRealm : ClusterPayload) :
    List IndividualRealm → Except JsError (List RealmRow)
  | [] => .ok []
  | individualRealm :: rest =>
    match rowOfRealm connectedRealm individualRealm with
    | .error e => .error e
    | .ok row =>
      match rowsOfMembers connectedRealm rest with
      | .error e => .error e
      | .ok rows => .ok (row :: rows)

/-- The rows contributed by one connected realm: the inner `forEach` guarded
by `connectedRealm.realms && Array.isArray(connectedRealm.realms)`. When the
guard fails nothing runs (and nothing can throw); when it passes, the member
loop runs and may throw. -/
def clusterRows (connectedRealm : ClusterPayload) : Except JsError (List RealmRow) :=
  match connectedRealm.realms with
  | .arr realms => rowsOfMembers connectedRealm realms
  | _ => .ok []

/-- Step 4 of `fetchRealmData`: the outer `forEach` pushing onto the
`flattenedRealms` accumulator, cluster by cluster in order; the first
`TypeError` thrown by a malformed payload escapes the whole step. -/
def flattenRealms : List ClusterPayload → Except JsError (List RealmRow)
  | [] => .ok []
  | connectedRealm :: rest =>
    match clusterRows connectedRealm with
    | .error e => .error e
    | .ok rows =>
      match flattenRealms rest with
      | .error e => .error e
      | .ok more => .ok (rows ++ more)

/-- The row emitted for a member of a well-typed cluster, written with total
projections; under a well-typedness hypothesis the `getD` defaults are never
reached and this is the flattening loop's object literal. -/
def wellTypedRow (c : ClusterPayload) (m : IndividualRealm) : RealmRow :=
  { connectedRealmId := c.id
    realmName := m.name
    statusType := (c.status.getD { type := "", name := "" }).type
    statusName := (c.status.getD { type := "", name := "" }).name
    populationType := (c.population.getD { type := "", name := "" }).type
    populationName := (c.population.getD { type := "", name := "" }).name
    hasQueue := c.has_queue
    realmType := (m.type.getD { name := "" }).name }

/-! ### Index fetch, id extraction, throttled detail loop -/

/-- One entry of `indexResponse.data.connected_realms`. `href := none` models
an entry whose `href` is not a string (absent or of the wrong type), on which
`realm.href.split('/')` throws a `TypeError`. -/
structure IndexEntry where
  href : Option String
deriving DecidableEq, Repr

/-- JavaScript `String.prototype.split` with a one-character separator,
modelled on the character list. `""` splits to `[""]`, separators at the ends
produce empty segments, exactly as in JavaScript. -/
def splitOnChar (sep : Char) (cs : List Char) : List (List Char) :=
  cs.foldr
    (fun c acc =>
      if c = sep then [] :: acc
      else
        match acc with
        | [] => [[c]]
        | g :: gs => (c :: g) :: gs)
    [[]]

/-- Step 2's id extraction for one string `href`: split on `'/'`, take the
last segment (`urlParts[urlParts.length - 1]`), split that on `'?'` and keep
the part before the `'?'` (`[0]`). Total on every string. -/
def extractId (href : String) : String :=
  let urlParts := splitOnChar '/' href.data
  let idWithQuery := urlParts.getLastD []
  ⟨(splitOnChar '?' idWithQuery).headD []⟩

/-- Step 2 of `fetchRealmData`: `indexResponse.data.connected_realms.map(...)`.
The map either produces one id per entry or, at the first entry whose `href`
is not a string, throws a `TypeError` that escapes to the outer `catch`. -/
def extractIds : List IndexEntry → Except JsError (List String)
  | [] => .ok []
  | realm :: rest =>
    match realm.href with
    | some href => (extractIds rest).map (fun ids => extractId href :: ids)
    | none => .error ⟨"TypeError: Cannot read properties of undefined (reading 'split')"⟩

/-- Step 3 of `fetchRealmData`: the sequential loop over `connectedRealmIds`.
A successful detail fetch is pushed onto `allConnectedRealmStatuses`; a
rejected one is caught by the inner `catch`, logged, and skipped. -/
def fetchLoop (ids : List String)
    (detailResponse : String → Except JsError ClusterPayload) : List ClusterPayload :=
  ids.foldl
    (fun acc id =>
      match detailResponse id with
      | .ok payload => acc ++ [payload]
      | .error _ => acc)
    []

/-- An observable event of the throttled loop: issuing the detail request for
one id, or awaiting `delay(ms)`. -/
inductive FetchEvent where
  | request (id : String)
  | wait (ms : Nat)
deriving DecidableEq, Repr

/-- The event trace of step 3's loop body: every iteration issues the request;
only the success path then executes `await delay(50)` (the `await` sits inside
the `try`, before the `catch`), after which the loop continues. -/
def fetchTrace (ids : List String)
    (detailResponse : String → Except JsError ClusterPayload) : List FetchEvent :=
  match ids with
  | [] => []
  | id :: rest =>
    match detailResponse id with
    | .ok _ => .request id :: .wait 50 :: fetchTrace rest detailResponse
    | .error _ => .request id :: fetchTrace rest detailResponse

/-! ### One pipeline run -/

/-- The inputs of one `fetchRealmData` run: the props plus the outcome each
network request would have. -/
structure Env where
  region : String
  accessToken : Option String
  indexResponse : Except JsError (List IndexEntry)
  detailResponse : String → Except JsError ClusterPayload

/-- The component state a run leaves behind: the three `useState` cells
written by `fetchRealmData`. -/
structure ComponentState where
  allRealmsForDisplay : Option (List RealmRow)
  isLoading : Bool
  error : Option String
deriving DecidableEq, Repr

/-- The error message built in the outer `catch` block. -/
def failureMessage (region : String) (err : JsError) : String :=
  "Failed to load " ++ region ++
    " realm status. Please check your network or API token. Error: " ++ err.message

/-- The complete `fetchRealmData` run, from `setIsLoading(true)`/
`setError(null)` to the `finally`. `allRealmsForDisplay` starts (and on every
error path stays) `none`, its `useState(null)` initial value. -/
def fetchRealmData (env : Env) : ComponentState :=
  match env.accessToken with
  | none =>
    { allRealmsForDisplay := none
      isLoading := false
      error := some "Authentication token not available." }
  | some _ =>
    match env.indexResponse with
    | .error err =>
      { allRealmsForDisplay := none
        isLoading := false
        error := some (failureMessage env.region err) }
    | .ok entries =>
      match extractIds entries with
      | .error err =>
        { allRealmsForDisplay := none
          isLoading := false
          error := some (failureMessage env.region err) }
      | .ok connectedRealmIds =>
        match flattenRealms (fetchLoop connectedRealmIds env.detailResponse) with
        | .error err =>
          { allRealmsForDisplay := none
            isLoading := false
            error := some (failureMessage env.region err) }
        | .ok flattenedRealms =>
          { allRealmsForDisplay := some flattenedRealms
            isLoading := false
            error := none }

/-- The READY render condition `!isLoading && !error && allRealmsForDisplay`
of the component's JSX. -/
def isReady (s : ComponentState) : Prop :=
  s.isLoading = false ∧ s.error = none ∧ s.allRealmsForDisplay.isSome = true

/-- The ERROR render condition: not loading and `error` set. -/
def isErrorState (s : ComponentState) : Prop :=
  s.isLoading = false ∧ s.error.isSome = true

/-! ### Sort engine -/

/-- The four columns whose headers call `handleSort`. -/
inductive Column where
  | realmName
  | statusName
  | populationName
  | realmType
deriving DecidableEq, Repr

/-- The two values of the `sortDirection` state cell. -/
inductive SortDirection where
  | asc
  | desc
deriving DecidableEq, Repr

/-- A comparator operand (`valueA` / `valueB`): a lowercased string for the
lexical columns, a number for the two rank-based columns. In the code both
operands of one comparison always have the same type. -/
inductive SKey where
  | str (s : String)
  | num (n : Nat)
deriving DecidableEq, Repr

/-- JavaScript `<` on the comparator operands: string-lexicographic or
numeric. A mixed comparison never occurs (same column, same shape); it would
be `false` in JavaScript (NaN comparison) and is `False` here. -/
def SKey.lt : SKey → SKey → Prop
  | .str a, .str b => a < b
  | .num a, .num b => a < b
  | _, _ => False

instance : DecidableRel SKey.lt := fun a b =>
  match a, b with
  | .str _, .str _ => inferInstanceAs (Decidable (_ < _))
  | .num a, .num b => inferInstanceAs (Decidable (a < b))
  | .str _, .num _ => isFalse (fun h => h)
  | .num _, .str _ => isFalse (fun h => h)

/-- JavaScript `toLowerCase`, modelled per character. -/
def jsToLower (s : String) : String :=
  ⟨s.data.map Char.toLower⟩

/-- The `populationOrder` lookup with its `|| 0` fallback:
`{ HIGH: 3, MEDIUM: 2, LOW: 1, FULL: 4 }`, anything else `0`. -/
def popRank (populationType : String) : Nat :=
  if populationType = "HIGH" then 3
  else if populationType = "MEDIUM" then 2
  else if populationType = "LOW" then 1
  else if populationType = "FULL" then 4
  else 0

/-- The comparator operand `valueA` computed for row `a` under `sortColumn`:
the `statusName` branch maps `statusType === 'UP'` to `1`/`0`, the
`populationName` branch looks up `populationOrder[populationType] || 0`, the
default branch lowercases the (string) column value. -/
def sortValue (sortColumn : Column) (a : RealmRow) : SKey :=
  match sortColumn with
  | .statusName => .num (if a.statusType = "UP" then 1 else 0)
  | .populationName => .num (popRank a.populationType)
  | .realmName => .str (jsToLower a.realmName)
  | .realmType => .str (jsToLower a.realmType)

/-- The comparator passed to `sortableRealms.sort`: `-1` when
`valueA < valueB`, `1` when `valueA > valueB`, `0` otherwise, with the two
returns swapped when `sortDirection` is `desc`. -/
def compareRealms (sortColumn : Column) (sortDirection : SortDirection)
    (a b : RealmRow) : Int :=
  let valueA := sortValue sortColumn a
  let valueB := sortValue sortColumn b
  if SKey.lt valueA valueB then
    match sortDirection with
    | .asc => -1
    | .desc => 1
  else if SKey.lt valueB valueA then
    match sortDirection with
    | .asc => 1
    | .desc => -1
  else 0

/-- The "`a` need not come after `b`" relation induced by the comparator; a
stable sort with comparator `c` is the stable sort under `c a b ≤ 0`. -/
def realmLe (sortColumn : Column) (sortDirection : SortDirection) (a b : RealmRow) : Prop :=
  compareRealms sortColumn sortDirection a b ≤ 0

instance (c : Column) (d : SortDirection) : DecidableRel (realmLe c d) := fun _ _ =>
  inferInstanceAs (Decidable (_ ≤ _))

/-- The `sortedRealms` memo on a non-null `allRealmsForDisplay`: a copy of the
rows, stably sorted by the comparator when a `sortColumn` is set, untouched
otherwise. -/
def sortRealms (rows : List RealmRow) (sortColumn : Option Column)
    (sortDirection : SortDirection) : List RealmRow :=
  match sortColumn with
  | none => rows
  | some c => List.insertionSort (realmLe c sortDirection) rows

/-- The full `sortedRealms` memo, including the `if (!allRealmsForDisplay)
return []` guard. -/
def sortedRealms (allRealmsForDisplay : Option (List RealmRow))
    (sortColumn : Option Column) (sortDirection : SortDirection) : List RealmRow :=
  match allRealmsForDisplay with
  | none => []
  | some rows => sortRealms rows sortColumn sortDirection

/-! ### Stale-completion model for the re-trigger race -/

/-- One fetch sequence run to completion: the generation (1 for the first
invocation of the effect, 2 for the one started by the later parameter
change) and the rows its final `setAllRealmsForDisplay` carries. -/
structure Completion where
  generation : Nat
  rows : List RealmRow
deriving DecidableEq, Repr

/-- How the component applies fetch completions, in resolution order: the
effect's cleanup is empty and `setAllRealmsForDisplay(flattenedRealms)` is
unconditional, so every completion overwrites the cell — there is no
generation token or cancellation check, and the last resolver wins. -/
def applyCompletions (completions : List Completion) : Option (List RealmRow) :=
  completions.foldl (fun _ c => some c.rows) none

/-! ### Concrete inputs used by witnesses and counterexamples -/

/-- A well-typed detail payload with one member realm. -/
def payloadA : ClusterPayload :=
  { id := 509
    status := some { type := "UP", name := "Up" }
    population := some { type := "FULL", name := "Full" }
    has_queue := true
    realms := .arr [{ name := "Azuremyst", type := some { name := "Normal" } }] }

/-- The single row flattening `payloadA` yields. -/
def azuremystRow : RealmRow :=
  { connectedRealmId := 509, realmName := "Azuremyst", statusType := "UP", statusName := "Up",
    populationType := "FULL", populationName := "Full", hasQueue := true, realmType := "Normal" }

/-- The first row flattening `payloadB` yields. -/
def draenorRow : RealmRow :=
  { connectedRealmId := 510, realmName := "Draenor", statusType := "DOWN", statusName := "Down",
    populationType := "LOW", populationName := "Low", hasQueue := false, realmType := "Normal" }

/-- The second row flattening `payloadB` yields. -/
def ravencrestRow : RealmRow :=
  { connectedRealmId := 510, realmName := "Ravencrest", statusType := "DOWN", statusName := "Down",
    populationType := "LOW", populationName := "Low", hasQueue := false, realmType := "RP" }

/-- A well-typed detail payload with two member realms. -/
def payloadB : ClusterPayload :=
  { id := 510
    status := some { type := "DOWN", name := "Down" }
    population := some { type := "LOW", name := "Low" }
    has_queue := false
    realms := .arr
      [{ name := "Draenor", type := some { name := "Normal" } },
       { name := "Ravencrest", type := some { name := "RP" } }] }

/-- A payload whose `realms` field is missing, for the ill-typed-cluster claim. -/
def illTypedPayload : ClusterPayload :=
  { id := 511
    status := some { type := "UP", name := "Up" }
    population := some { type := "MEDIUM", name := "Medium" }
    has_queue := false
    realms := .absent }

/-- A detail payload that resolves successfully (HTTP 200) but is malformed:
its required `status` object is absent while its `realms` array is non-empty,
the spec's `MalformedPayloadError` condition. -/
def malformedStatusPayload : ClusterPayload :=
  { id := 510
    status := none
    population := some { type := "LOW", name := "Low" }
    has_queue := false
    realms := .arr [{ name := "Ghostlands", type := some { name := "Normal" } }] }

/-- An environment with two index entries whose detail fetches both resolve:
id `"509"` with a well-typed payload and id `"510"` with the malformed one. -/
def envMalformedDetail : Env :=
  { region := "EU"
    accessToken := some "token"
    indexResponse := .ok [⟨some "x/509?n"⟩, ⟨some "x/510?n"⟩]
    detailResponse := fun id =>
      if id = "509" then .ok payloadA
      else if id = "510" then .ok malformedStatusPayload
      else .error ⟨"Request failed with status code 404"⟩ }

/-- A detail responder that succeeds only for id `"509"`. -/
def detailOnly509 : String → Except JsError ClusterPayload :=
  fun id => if id = "509" then .ok payloadA else .error ⟨"Request failed with status code 404"⟩

/-- An environment whose index succeeds with two entries, of which the first
detail fetch fails and the second succeeds. -/
def envOneFailure : Env :=
  { region := "EU"
    accessToken := some "token"
    indexResponse := .ok [⟨some "x/404?n"⟩, ⟨some "x/509?n"⟩]
    detailResponse := detailOnly509 }

/-- An environment whose index succeeds with zero entries. -/
def emptyIndexEnv : Env :=
  { region := "EU"
    accessToken := some "token"
    indexResponse := .ok []
    detailResponse := fun _ => .error ⟨"unreached"⟩ }

/-- An environment with one index entry whose single detail fetch fails. -/
def allFailEnv : Env :=
  { region := "EU"
    accessToken := some "token"
    indexResponse := .ok [⟨some "x/101"⟩]
    detailResponse := fun _ => .error ⟨"Request failed with status code 500"⟩ }

/-- A realistic resource link carrying a query string. -/
def goodHref : String :=
  "https://eu.api.blizzard.com/data/wow/connected-realm/509?namespace=dynamic-eu"

/-- An environment whose index contains a malformed entry (non-string `href`)
followed by a well-formed one, with all detail fetches succeeding. -/
def malformedIndexEnv : Env :=
  { region := "EU"
    accessToken := some "token"
    indexResponse := .ok [⟨none⟩, ⟨some goodHref⟩]
    detailResponse := fun _ => .ok payloadA }

/-- Rows of the four population types, used by the sort claims. -/
def rowFULL : RealmRow :=
  { connectedRealmId := 1, realmName := "Silvermoon", statusType := "UP", statusName := "Up",
    populationType := "FULL", populationName := "Full", hasQueue := true, realmType := "Normal" }

def rowHIGH : RealmRow :=
  { connectedRealmId := 2, realmName := "Draenor", statusType := "UP", statusName := "Up",
    populationType := "HIGH", populationName := "High", hasQueue := false, realmType := "Normal" }

def rowLOW : RealmRow :=
  { connectedRealmId := 3, realmName := "Zenedar", statusType := "DOWN", statusName := "Down",
    populationType := "LOW", populationName := "Low", hasQueue := false, realmType := "PvP" }

def rowMED : RealmRow :=
  { connectedRealmId := 4, realmName := "Arathor", statusType := "UP", statusName := "Up",
    populationType := "MEDIUM", populationName := "Medium", hasQueue := false, realmType := "RP" }

/-- The id a request event carries, if it is one. -/
def requestedId : FetchEvent → Option String
  | .request id => some id
  | .wait _ => none

/-- Whether an event is a delay. -/
def isWaitEvent : FetchEvent → Bool
  | .wait _ => true
  | .request _ => false

/-! ### Basic lemmas about the flattening and fetch loops -/

theorem rowOfRealm_ok {c : ClusterPayload} {m : IndividualRealm}
    (hs : c.status.isSome = true) (hp : c.population.isSome = true)
    (ht : m.type.isSome = true) :
    rowOfRealm c m = .ok (wellTypedRow c m) := by
  obtain ⟨s, hs'⟩ := Option.isSome_iff_exists.mp hs
  obtain ⟨p, hp'⟩ := Option.isSome_iff_exists.mp hp
  obtain ⟨t, ht'⟩ := Option.isSome_iff_exists.mp ht
  simp [rowOfRealm, wellTypedRow, hs', hp', ht']

theorem rowsOfMembers_ok {c : ClusterPayload}
    (hs : c.status.isSome = true) (hp : c.population.isSome = true) :
    ∀ ms : List IndividualRealm, (∀ m ∈ ms, m.type.isSome = true) →
      rowsOfMembers c ms = .ok (ms.map (wellTypedRow c))
  | [], _ => rfl
  | m :: rest, h => by
    have h1 := rowOfRealm_ok hs hp (h m (List.mem_cons_self m rest))
    have h2 := rowsOfMembers_ok hs hp rest fun x hx => h x (List.mem_cons_of_mem m hx)
    simp [rowsOfMembers, h1, h2]

theorem clusterRows_ok_of_wellTyped {c : ClusterPayload}
    (hs : c.status.isSome = true) (hp : c.population.isSome = true)
    (hm : ∀ m ∈ c.realms.toList, m.type.isSome = true) :
    clusterRows c = .ok (c.realms.toList.map (wellTypedRow c)) := by
  cases hr : c.realms with
  | arr rs =>
    rw [hr] at hm
    simp only [clusterRows, hr, RealmsField.toList]
    exact rowsOfMembers_ok hs hp rs hm
  | absent => simp [clusterRows, hr, RealmsField.toList]
  | nonArray => simp [clusterRows, hr, RealmsField.toList]

theorem flattenRealms_ok_of_wellTyped :
    ∀ statuses : List ClusterPayload,
      (∀ c ∈ statuses, c.status.isSome = true ∧ c.population.isSome = true
        ∧ ∀ m ∈ c.realms.toList, m.type.isSome = true) →
      flattenRealms statuses
        = .ok (statuses.flatMap fun c => c.realms.toList.map (wellTypedRow c))
  | [], _ => rfl
  | c :: rest, h => by
    obtain ⟨hs, hp, hm⟩ := h c (List.mem_cons_self c rest)
    have h1 := clusterRows_ok_of_wellTyped hs hp hm
    have h2 := flattenRealms_ok_of_wellTyped rest fun x hx => h x (List.mem_cons_of_mem c hx)
    simp [flattenRealms, h1, h2, List.flatMap_cons]

theorem flattenRealms_middle_ok_nil (pre : List ClusterPayload) (post : List ClusterPayload)
    (c : ClusterPayload) (hc : clusterRows c = .ok []) :
    flattenRealms (pre ++ c :: post) = flattenRealms (pre ++ post) := by
  induction pre with
  | nil =>
    cases h : flattenRealms post <;> simp [flattenRealms, hc, h]
  | cons p t ih =>
    cases hp : clusterRows p <;> simp [flattenRealms, hp, ih]

theorem fetchLoop_eq_filterMap (ids : List String)
    (d : String → Except JsError ClusterPayload) :
    fetchLoop ids d = ids.filterMap fun id => (d id).toOption := by
  have h : ∀ (ids : List String) (acc : List ClusterPayload),
      ids.foldl
          (fun acc id =>
            match d id with
            | .ok payload => acc ++ [payload]
            | .error _ => acc)
          acc
        = acc ++ ids.filterMap fun id => (d id).toOption := by
    intro ids
    induction ids with
    | nil => intro acc; simp
    | cons id t ih =>
      intro acc
      cases hd : d id <;> simp [hd, ih, List.filterMap_cons, Except.toOption]
  simpa [fetchLoop] using h ids []

theorem filterMap_toOption_of_forall2 (d : String → Except JsError ClusterPayload)
    {ids : List String} {ps : List ClusterPayload}
    (h : List.Forall₂ (fun id p => d id = .ok p) ids ps) :
    (ids.filterMap fun id => (d id).toOption) = ps := by
  induction h with
  | nil => rfl
  | cons hd _ ih =>
    rw [List.filterMap_cons]
    simp only [hd]
    exact congrArg (List.cons _) ih

theorem extractIds_ok_of_all_some (entries : List IndexEntry)
    (h : ∀ e ∈ entries, e.href.isSome = true) :
    extractIds entries = .ok (entries.map fun e => extractId (e.href.getD "")) := by
  induction entries with
  | nil => rfl
  | cons e t ih =>
    obtain ⟨href, hh⟩ := Option.isSome_iff_exists.mp (h e (List.mem_cons_self e t))
    have ht := ih fun x hx => h x (List.mem_cons_of_mem e hx)
    simp [extractIds, hh, ht, Except.map]

theorem extractIds_error_of_mem_none (entries : List IndexEntry)
    (h : ∃ e ∈ entries, e.href = none) :
    extractIds entries
      = .error ⟨"TypeError: Cannot read properties of undefined (reading 'split')"⟩ := by
  induction entries with
  | nil => simp at h
  | cons e t ih =>
    obtain ⟨x, hx, hnone⟩ := h
    rcases List.mem_cons.mp hx with rfl | hx'
    · simp [extractIds, hnone]
    · cases he : e.href with
      | none => simp [extractIds, he]
      | some s => simp [extractIds, he, ih ⟨x, hx', hnone⟩, Except.map]

theorem fetchTrace_eq_flatMap (ids : List String)
    (d : String → Except JsError ClusterPayload) :
    fetchTrace ids d
      = ids.flatMap fun id =>
          match d id with
          | .ok _ => [.request id, .wait 50]
          | .error _ => [.request id] := by
  induction ids with
  | nil => rfl
  | cons id t ih => cases hd : d id <;> simp [fetchTrace, hd, ih]

theorem fetchTrace_requests (ids : List String)
    (d : String → Except JsError ClusterPayload) :
    (fetchTrace ids d).filterMap requestedId = ids := by
  induction ids with
  | nil => rfl
  | cons id t ih =>
    cases hd : d id <;>
      simp [fetchTrace, hd, List.filterMap_cons, requestedId, ih]

theorem fetchTrace_waitCount (ids : List String)
    (d : String → Except JsError ClusterPayload) :
    (fetchTrace ids d).countP isWaitEvent
      = ids.countP fun id => (d id).toOption.isSome := by
  induction ids with
  | nil => rfl
  | cons id t ih =>
    cases hd : d id <;>
      simp [fetchTrace, hd, List.countP_cons, isWaitEvent, ih, Except.toOption]

/-! ### Claim theorems -/

/-- C1: for every sequence of well-typed cluster payloads (present `status`
and `population` objects, an actual `realms` array, every member carrying a
`type` object) the flattening step succeeds and emits exactly one row per
member realm, equal to the nested expansion that copies the owning cluster's
status/population/queue fields and the member's name/type, clusters in input
order and members in their original order; every successful flattening result
has length equal to the sum of the member counts. -/
theorem flatten_one_row_per_member (statuses : List ClusterPayload)
    (hwt : ∀ c ∈ statuses, c.status.isSome = true ∧ c.population.isSome = true
      ∧ (∃ realms, c.realms = RealmsField.arr realms)
      ∧ ∀ m ∈ c.realms.toList, m.type.isSome = true) :
    flattenRealms statuses
      = .ok (statuses.flatMap fun c =>
          c.realms.toList.map fun m =>
            { connectedRealmId := c.id
              realmName := m.name
              statusType := (c.status.getD { type := "", name := "" }).type
              statusName := (c.status.getD { type := "", name := "" }).name
              populationType := (c.population.getD { type := "", name := "" }).type
              populationName := (c.population.getD { type := "", name := "" }).name
              hasQueue := c.has_queue
              realmType := (m.type.getD { name := "" }).name })
    ∧ ∀ rows, flattenRealms statuses = .ok rows →
        rows.length = (statuses.map fun c => c.realms.toList.length).sum := by
  have h1 := flattenRealms_ok_of_wellTyped statuses fun c hc =>
    ⟨(hwt c hc).1, (hwt c hc).2.1, (hwt c hc).2.2.2⟩
  refine ⟨h1, ?_⟩
  intro rows hrows
  rw [h1] at hrows
  injection hrows with hrows
  rw [← hrows, List.length_flatMap]
  have hfun : (List.length ∘ fun c : ClusterPayload => List.map (wellTypedRow c) c.realms.toList)
      = fun c : ClusterPayload => c.realms.toList.length := by
    funext c
    simp [Function.comp, List.length_map]
  rw [hfun]

/-- C1 witness: the flattening claim instantiated on two concrete well-typed
payloads with one and two members. -/
theorem flatten_one_row_per_member_witness :
    flattenRealms [payloadA, payloadB] = .ok [azuremystRow, draenorRow, ravencrestRow]
    ∧ ([azuremystRow, draenorRow, ravencrestRow] : List RealmRow).length
      = ([payloadA, payloadB].map fun c => c.realms.toList.length).sum := by
  have h := flatten_one_row_per_member [payloadA, payloadB]
    (by
      intro c hc
      rcases List.mem_cons.mp hc with rfl | hc
      · exact ⟨rfl, rfl, ⟨_, rfl⟩, by decide⟩
      · rcases List.mem_cons.mp hc with rfl | hc
        · exact ⟨rfl, rfl, ⟨_, rfl⟩, by decide⟩
        · exact absurd hc (List.not_mem_nil c))
  refine ⟨?_, ?_⟩
  · rw [h.1]; decide
  · exact h.2 [azuremystRow, draenorRow, ravencrestRow] (h.1.trans (by decide))

/-- C10: a successfully fetched payload whose `realms` field is absent or not
an array contributes zero rows, and flattening a batch containing it equals
flattening the batch without it — no abort, all other clusters' rows intact. -/
theorem ill_typed_realms_skipped (pre post : List ClusterPayload) (c : ClusterPayload)
    (h : c.realms = RealmsField.absent ∨ c.realms = RealmsField.nonArray) :
    clusterRows c = .ok []
    ∧ flattenRealms (pre ++ c :: post) = flattenRealms (pre ++ post) := by
  have hc : clusterRows c = .ok [] := by
    rcases h with h | h <;> simp [clusterRows, h]
  exact ⟨hc, flattenRealms_middle_ok_nil pre post c hc⟩

/-- C10 witness: the skipping claim instantiated on a batch whose middle
payload has no `realms` array. -/
theorem ill_typed_realms_skipped_witness :
    (illTypedPayload.realms = RealmsField.absent ∨ illTypedPayload.realms = RealmsField.nonArray)
    ∧ (clusterRows illTypedPayload = .ok []
       ∧ flattenRealms ([payloadA] ++ illTypedPayload :: [payloadB])
          = flattenRealms ([payloadA] ++ [payloadB])) :=
  ⟨Or.inl rfl, ill_typed_realms_skipped [payloadA] [payloadB] illTypedPayload (Or.inl rfl)⟩

/-- C2 counterexample: with an index of two ids whose detail fetches both
resolve, the second returning a malformed 200 payload (no `status` object,
non-empty `realms`) — the spec's `MalformedPayloadError`, so exactly one of
the two detail fetches fails and the other succeeds — the pipeline does not
reach READY with the succeeding cluster's row: the malformed payload is
pushed raw, the flattening dereference of `connectedRealm.status.type`
throws, the outer catch fires, and the run ends ERROR with no rows at all. -/
theorem malformed_payload_aborts_counterexample :
    envMalformedDetail.detailResponse "509" = .ok payloadA
    ∧ envMalformedDetail.detailResponse "510" = .ok malformedStatusPayload
    ∧ malformedStatusPayload.status = none
    ∧ isErrorState (fetchRealmData envMalformedDetail)
    ∧ ¬ isReady (fetchRealmData envMalformedDetail)
    ∧ (fetchRealmData envMalformedDetail).allRealmsForDisplay = none := by
  refine ⟨by decide, by decide, rfl, ⟨rfl, rfl⟩, fun h => ?_, rfl⟩
  exact Option.noConfusion h.2.1

/-- C2 amended: when exactly one detail fetch fails by promise rejection
(transport/network failure) and the other N−1 resolve with payloads the
flattening step consumes without throwing, the run ends READY and its rows
are the flattening of the succeeding payloads, in fetch order — the rejection
is skipped, not escalated. (A detail fetch that instead resolves with a
malformed payload is not isolated: flattening throws and the whole run ends
ERROR, per the counterexample.) -/
theorem fetch_single_rejection_partial_rows (env : Env) (entries : List IndexEntry)
    (pre post : List String) (bad : String) (payloads : List ClusterPayload)
    (rows : List RealmRow)
    (htok : env.accessToken.isSome = true)
    (hidx : env.indexResponse = .ok entries)
    (hids : extractIds entries = .ok (pre ++ bad :: post))
    (hbad : ∃ e, env.detailResponse bad = .error e)
    (hsuc : List.Forall₂ (fun id p => env.detailResponse id = .ok p) (pre ++ post) payloads)
    (hflat : flattenRealms payloads = .ok rows) :
    fetchRealmData env =
      { allRealmsForDisplay := some rows
        isLoading := false
        error := none }
    ∧ isReady (fetchRealmData env) := by
  obtain ⟨tok, htok'⟩ := Option.isSome_iff_exists.mp htok
  obtain ⟨e, he⟩ := hbad
  have hrows : fetchLoop (pre ++ bad :: post) env.detailResponse = payloads := by
    rw [fetchLoop_eq_filterMap]
    have hsplit : ((pre ++ bad :: post).filterMap fun id => (env.detailResponse id).toOption)
        = (pre ++ post).filterMap fun id => (env.detailResponse id).toOption := by
      simp [List.filterMap_append, List.filterMap_cons, he, Except.toOption]
    rw [hsplit, filterMap_toOption_of_forall2 env.detailResponse hsuc]
  have h1 : fetchRealmData env =
      { allRealmsForDisplay := some rows
        isLoading := false
        error := none } := by
    simp [fetchRealmData, htok', hidx, hids, hrows, hflat]
  refine ⟨h1, ?_⟩
  rw [h1]
  exact ⟨rfl, rfl, rfl⟩

/-- C2 amended witness: the rejection-isolation claim instantiated on a
concrete index of two ids where the first detail fetch is rejected and the
second resolves with a well-typed payload. -/
theorem fetch_single_rejection_partial_rows_witness :
    envOneFailure.accessToken.isSome = true
    ∧ (fetchRealmData envOneFailure =
        { allRealmsForDisplay := some [azuremystRow]
          isLoading := false
          error := none }
      ∧ isReady (fetchRealmData envOneFailure)) :=
  ⟨rfl,
    fetch_single_rejection_partial_rows envOneFailure
      [⟨some "x/404?n"⟩, ⟨some "x/509?n"⟩] [] ["509"] "404" [payloadA] [azuremystRow]
      rfl rfl (by decide)
      ⟨⟨"Request failed with status code 404"⟩, by decide⟩
      (List.Forall₂.cons (by decide) List.Forall₂.nil)
      (by decide)⟩

/-- C3 counterexample: on an index with zero entries the code ends READY with
an empty row sequence and no error — there is no `EmptyIndexError` and the
ERROR state is not entered, contradicting the claim. -/
theorem empty_index_ready_counterexample :
    fetchRealmData emptyIndexEnv
      = { allRealmsForDisplay := some [], isLoading := false, error := none }
    ∧ isReady (fetchRealmData emptyIndexEnv)
    ∧ ¬ isErrorState (fetchRealmData emptyIndexEnv) := by
  refine ⟨rfl, ⟨rfl, rfl, rfl⟩, fun h => ?_⟩
  exact absurd h.2 (by decide)

/-- C3 amended: for every run whose token is present and whose index response
succeeds with zero entries, the pipeline ends READY holding an empty row
sequence (the renderer then shows its "no individual realms found"
placeholder row), and the ERROR state is not entered. -/
theorem empty_index_ready (env : Env)
    (htok : env.accessToken.isSome = true)
    (hidx : env.indexResponse = .ok []) :
    fetchRealmData env
      = { allRealmsForDisplay := some [], isLoading := false, error := none }
    ∧ isReady (fetchRealmData env)
    ∧ ¬ isErrorState (fetchRealmData env) := by
  obtain ⟨tok, htok'⟩ := Option.isSome_iff_exists.mp htok
  have h1 : fetchRealmData env
      = { allRealmsForDisplay := some [], isLoading := false, error := none } := by
    simp [fetchRealmData, htok', hidx, extractIds, fetchLoop, flattenRealms]
  refine ⟨h1, ?_, ?_⟩
  · rw [h1]; exact ⟨rfl, rfl, rfl⟩
  · rw [h1]; intro h; exact absurd h.2 (by decide)

/-- C3 amended witness: the empty-index claim instantiated on the concrete
empty-index environment. -/
theorem empty_index_ready_witness :
    emptyIndexEnv.accessToken.isSome = true ∧ isReady (fetchRealmData emptyIndexEnv) :=
  ⟨rfl, (empty_index_ready emptyIndexEnv rfl rfl).2.1⟩

/-- C4 counterexample: with a non-empty index whose only detail fetch fails,
the code ends READY with zero rows and no error — there is no
`AllDetailFetchesFailedError` and the ERROR state is not entered,
contradicting the claim. -/
theorem all_detail_failures_counterexample :
    fetchRealmData allFailEnv
      = { allRealmsForDisplay := some [], isLoading := false, error := none }
    ∧ isReady (fetchRealmData allFailEnv)
    ∧ ¬ isErrorState (fetchRealmData allFailEnv) := by
  refine ⟨by decide, ⟨by decide, by decide, by decide⟩, fun h => ?_⟩
  have h2 := h.2
  rw [show fetchRealmData allFailEnv
      = { allRealmsForDisplay := some [], isLoading := false, error := none } from by decide] at h2
  exact absurd h2 (by decide)

/-- C4 amended: when the index yields a non-empty id list and every detail
fetch fails, the run still ends READY holding zero rows; no overall failure is
raised and the ERROR state is not entered. -/
theorem all_detail_failures_ready (env : Env) (entries : List IndexEntry) (ids : List String)
    (htok : env.accessToken.isSome = true)
    (hidx : env.indexResponse = .ok entries)
    (hids : extractIds entries = .ok ids)
    (hne : ids ≠ [])
    (hfail : ∀ id ∈ ids, (env.detailResponse id).toOption = none) :
    fetchRealmData env
      = { allRealmsForDisplay := some [], isLoading := false, error := none }
    ∧ isReady (fetchRealmData env)
    ∧ ¬ isErrorState (fetchRealmData env) := by
  obtain ⟨tok, htok'⟩ := Option.isSome_iff_exists.mp htok
  have hloop : fetchLoop ids env.detailResponse = [] := by
    rw [fetchLoop_eq_filterMap]
    exact List.filterMap_eq_nil_iff.mpr hfail
  have h1 : fetchRealmData env
      = { allRealmsForDisplay := some [], isLoading := false, error := none } := by
    simp [fetchRealmData, htok', hidx, hids, hloop, flattenRealms]
  refine ⟨h1, ?_, ?_⟩
  · rw [h1]; exact ⟨rfl, rfl, rfl⟩
  · rw [h1]; intro h; exact absurd h.2 (by decide)

/-- C4 amended witness: the all-failures claim instantiated on the concrete
one-entry environment whose detail fetch fails. -/
theorem all_detail_failures_ready_witness :
    (["101"] ≠ ([] : List String)) ∧ isReady (fetchRealmData allFailEnv) :=
  ⟨by decide,
    (all_detail_failures_ready allFailEnv [⟨some "x/101"⟩] ["101"]
      rfl rfl (by decide) (by decide) (by decide)).2.1⟩

/-- C6 counterexample: with two ids of which the first detail fetch fails, the
loop's event trace issues the two requests back to back — the fixed delay is
skipped after the failed attempt (`await delay(50)` sits on the success path
only), contradicting the claim that a delay follows every attempt. -/
theorem throttle_delay_counterexample :
    fetchTrace ["404", "509"] detailOnly509
      = [.request "404", .request "509", .wait 50]
    ∧ fetchTrace ["404", "509"] detailOnly509
      ≠ [.request "404", .wait 50, .request "509", .wait 50] := by
  exact ⟨by decide, by decide⟩

/-- C6 amended: the fixed 50-unit delay elapses after every successful
detail-fetch attempt (including the last), and after a failed attempt the next
request is issued immediately with no delay: the trace is, per id, the request
followed by a delay exactly when that id's fetch succeeds; consequently the
requests occur in id order and the number of delays equals the number of
successful fetches. -/
theorem throttle_delay_after_success (ids : List String)
    (d : String → Except JsError ClusterPayload) :
    fetchTrace ids d
      = (ids.flatMap fun id =>
          match d id with
          | .ok _ => [.request id, .wait 50]
          | .error _ => [.request id])
    ∧ (fetchTrace ids d).filterMap requestedId = ids
    ∧ (fetchTrace ids d).countP isWaitEvent
      = ids.countP fun id => (d id).toOption.isSome :=
  ⟨fetchTrace_eq_flatMap ids d, fetchTrace_requests ids d, fetchTrace_waitCount ids d⟩

/-- C7 counterexample: an index whose first entry is malformed (its `href` is
not a string) makes the extraction map throw; the error aborts the whole run
into the ERROR state, and the following well-formed entry's id is never
produced — the malformed entry is not dropped by any filtering step. -/
theorem extraction_abort_counterexample :
    extractIds [⟨none⟩, ⟨some goodHref⟩]
      = .error ⟨"TypeError: Cannot read properties of undefined (reading 'split')"⟩
    ∧ isErrorState (fetchRealmData malformedIndexEnv)
    ∧ ¬ isReady (fetchRealmData malformedIndexEnv) := by
  refine ⟨rfl, ⟨rfl, rfl⟩, fun h => ?_⟩
  exact Option.noConfusion h.2.1

/-- C7 amended: id extraction never throws when every entry's `href` is a
string — with or without a query suffix — and performs no filtering, emitting
exactly one id per entry; but an entry whose `href` is not a string throws,
and the escaped error aborts the whole index fetch into the ERROR state. -/
theorem extraction_no_filter (entries : List IndexEntry) :
    ((∀ e ∈ entries, e.href.isSome = true) →
      extractIds entries = .ok (entries.map fun e => extractId (e.href.getD "")))
    ∧ (∀ env : Env, env.accessToken.isSome = true → env.indexResponse = .ok entries →
        (∃ e ∈ entries, e.href = none) →
        isErrorState (fetchRealmData env) ∧ ¬ isReady (fetchRealmData env))
    ∧ extractId "https://h/data/wow/connected-realm/509?namespace=dynamic-eu" = "509"
    ∧ extractId "https://h/data/wow/connected-realm/509" = "509" := by
  refine ⟨extractIds_ok_of_all_some entries, ?_, by decide, by decide⟩
  intro env htok hidx hmal
  obtain ⟨tok, htok'⟩ := Option.isSome_iff_exists.mp htok
  have herr := extractIds_error_of_mem_none entries hmal
  have h1 : fetchRealmData env
      = { allRealmsForDisplay := none
          isLoading := false
          error := some (failureMessage env.region
            ⟨"TypeError: Cannot read properties of undefined (reading 'split')"⟩) } := by
    simp [fetchRealmData, htok', hidx, herr]
  constructor
  · rw [h1]; exact ⟨rfl, rfl⟩
  · rw [h1]; intro h; exact Option.noConfusion h.2.1

/-- C7 amended witness: extraction applied to a one-entry all-string index,
and the abort applied to the concrete malformed index environment. -/
theorem extraction_no_filter_witness :
    extractIds [IndexEntry.mk (some goodHref)]
      = .ok ([IndexEntry.mk (some goodHref)].map fun e => extractId (e.href.getD ""))
    ∧ (isErrorState (fetchRealmData malformedIndexEnv)
       ∧ ¬ isReady (fetchRealmData malformedIndexEnv)) :=
  ⟨(extraction_no_filter [IndexEntry.mk (some goodHref)]).1 (by decide),
    (extraction_no_filter [⟨none⟩, ⟨some goodHref⟩]).2.1 malformedIndexEnv rfl rfl
      ⟨⟨none⟩, List.mem_cons_self _ _, rfl⟩⟩

/-- C9: the effect has no staleness guard (its cleanup is empty and the final
state write is unconditional), so when the older generation-1 sequence
resolves after the newer generation-2 sequence, the stale generation-1 rows
overwrite the newer result — the final state is not the later sequence's. -/
theorem stale_completion_overwrites :
    applyCompletions [⟨2, []⟩, ⟨1, [rowHIGH]⟩] = some [rowHIGH]
    ∧ applyCompletions [⟨2, []⟩, ⟨1, [rowHIGH]⟩] ≠ some [] :=
  ⟨rfl, by decide⟩

/-! ### Sort-engine lemmas -/

theorem orderedInsert_congr {α : Type} (r₁ r₂ : α → α → Prop)
    [DecidableRel r₁] [DecidableRel r₂] (h : ∀ a b, r₁ a b ↔ r₂ a b) (a : α) :
    ∀ l : List α, List.orderedInsert r₁ a l = List.orderedInsert r₂ a l
  | [] => rfl
  | b :: l => by
    show (if r₁ a b then a :: b :: l else b :: List.orderedInsert r₁ a l)
        = (if r₂ a b then a :: b :: l else b :: List.orderedInsert r₂ a l)
    by_cases hr : r₁ a b
    · rw [if_pos hr, if_pos ((h a b).mp hr)]
    · rw [if_neg hr, if_neg (fun hc => hr ((h a b).mpr hc)),
        orderedInsert_congr r₁ r₂ h a l]

theorem insertionSort_congr {α : Type} (r₁ r₂ : α → α → Prop)
    [DecidableRel r₁] [DecidableRel r₂] (h : ∀ a b, r₁ a b ↔ r₂ a b) :
    ∀ l : List α, List.insertionSort r₁ l = List.insertionSort r₂ l
  | [] => rfl
  | a :: l => by
    show List.orderedInsert r₁ a (List.insertionSort r₁ l)
        = List.orderedInsert r₂ a (List.insertionSort r₂ l)
    rw [insertionSort_congr r₁ r₂ h l, orderedInsert_congr r₁ r₂ h a]

theorem SKey.not_lt_self : ∀ v : SKey, ¬ SKey.lt v v
  | .str s => fun h => lt_irrefl s h
  | .num n => fun h => lt_irrefl n h

theorem compareRealms_eq_zero_of_eq (c : Column) (d : SortDirection) {a b : RealmRow}
    (h : sortValue c a = sortValue c b) : compareRealms c d a b = 0 := by
  have hirr : ¬ SKey.lt (sortValue c a) (sortValue c b) := by
    rw [h]; exact SKey.not_lt_self _
  have hirr' : ¬ SKey.lt (sortValue c b) (sortValue c a) := by
    rw [h]; exact SKey.not_lt_self _
  simp [compareRealms, hirr, hirr']

theorem realmLe_iff_of_lt_iff {β : Type} [LinearOrder β] {c : Column} {k : RealmRow → β}
    (hlt : ∀ a b, SKey.lt (sortValue c a) (sortValue c b) ↔ k a < k b) :
    (∀ a b, realmLe c .asc a b ↔ k a ≤ k b)
    ∧ (∀ a b, realmLe c .desc a b ↔ k b ≤ k a) := by
  have key : ∀ (d : SortDirection) (a b : RealmRow),
      realmLe c d a b ↔ match d with | .asc => k a ≤ k b | .desc => k b ≤ k a := by
    intro d a b
    simp only [realmLe, compareRealms]
    split_ifs with h1 h2
    · cases d
      · exact iff_of_true (by decide) (le_of_lt ((hlt a b).mp h1))
      · exact iff_of_false (by decide) (not_le.mpr ((hlt a b).mp h1))
    · cases d
      · exact iff_of_false (by decide) (not_le.mpr ((hlt b a).mp h2))
      · exact iff_of_true (by decide) (le_of_lt ((hlt b a).mp h2))
    · have heq : k a = k b := le_antisymm
        (not_lt.mp fun hk => h2 ((hlt b a).mpr hk))
        (not_lt.mp fun hk => h1 ((hlt a b).mpr hk))
      cases d
      · exact iff_of_true (by decide) (le_of_eq heq)
      · exact iff_of_true (by decide) (le_of_eq heq.symm)
  exact ⟨fun a b => key .asc a b, fun a b => key .desc a b⟩

theorem filter_insertionSort {α : Type} (r : α → α → Prop) [DecidableRel r] (p : α → Bool)
    (l : List α) (hp : ∀ a ∈ l, ∀ b ∈ l, p a = true → p b = true → r a b) :
    (List.insertionSort r l).filter p = l.filter p := by
  have hpair : (l.filter p).Pairwise r :=
    List.pairwise_of_forall_mem_list fun a ha b hb =>
      hp a (List.mem_of_mem_filter ha) b (List.mem_of_mem_filter hb)
        (List.of_mem_filter ha) (List.of_mem_filter hb)
  have h1 : (l.filter p).Sublist (List.insertionSort r l) :=
    List.sublist_insertionSort hpair (List.filter_sublist l)
  have h2 : (l.filter p).Sublist ((List.insertionSort r l).filter p) := by
    have h3 := List.Sublist.filter p h1
    have h4 : (l.filter p).filter p = l.filter p :=
      List.filter_eq_self.mpr fun a ha => List.of_mem_filter ha
    rwa [h4] at h3
  have hperm : ((List.insertionSort r l).filter p).Perm (l.filter p) :=
    (List.perm_insertionSort r l).filter p
  exact (h2.eq_of_length hperm.length_eq.symm).symm

theorem insertionSort_flip_eq_reverse {α β : Type} [LinearOrder β] (key : α → β)
    (l : List α) (hnd : (l.map key).Nodup) :
    List.insertionSort (fun a b => key b ≤ key a) l
      = (List.insertionSort (fun a b => key a ≤ key b) l).reverse := by
  haveI hTotA : IsTotal α fun a b => key a ≤ key b := ⟨fun a b => le_total _ _⟩
  haveI hTransA : IsTrans α fun a b => key a ≤ key b := ⟨fun _ _ _ h h' => le_trans h h'⟩
  haveI hTotD : IsTotal α fun a b => key b ≤ key a := ⟨fun a b => le_total _ _⟩
  haveI hTransD : IsTrans α fun a b => key b ≤ key a := ⟨fun _ _ _ h h' => le_trans h' h⟩
  set A := List.insertionSort (fun a b => key a ≤ key b) l with hA
  set D := List.insertionSort (fun a b => key b ≤ key a) l with hD
  have hpermA : A.Perm l := List.perm_insertionSort _ l
  have hpermD : D.Perm l := List.perm_insertionSort _ l
  have hsortA : List.Sorted (fun a b => key a ≤ key b) A := List.sorted_insertionSort _ l
  have hsortD : List.Sorted (fun a b => key b ≤ key a) D := List.sorted_insertionSort _ l
  have hsortDrev : List.Pairwise (fun a b => key a ≤ key b) D.reverse :=
    List.pairwise_reverse.mpr hsortD
  have hmapA : List.Sorted (· ≤ ·) (A.map key) := List.pairwise_map.mpr hsortA
  have hmapDrev : List.Sorted (· ≤ ·) (D.reverse.map key) := List.pairwise_map.mpr hsortDrev
  have hpermrev : (D.reverse.map key).Perm (A.map key) :=
    (((List.reverse_perm D).trans hpermD).trans hpermA.symm).map key
  have hkeys : D.reverse.map key = A.map key :=
    List.eq_of_perm_of_sorted hpermrev hmapDrev hmapA
  have hlen : D.reverse.length = A.length := by
    have h := congrArg List.length hkeys
    simpa using h
  have hinj := List.inj_on_of_nodup_map hnd
  have hDA : D.reverse = A := by
    apply List.ext_get hlen
    intro n h₁ h₂
    have hkn : key (D.reverse.get ⟨n, h₁⟩) = key (A.get ⟨n, h₂⟩) := by
      have h := congrArg (fun t : List β => t[n]?) hkeys
      simp only [List.getElem?_map] at h
      rw [List.getElem?_eq_getElem h₁, List.getElem?_eq_getElem h₂] at h
      simpa [List.get_eq_getElem] using h
    have hmem₁ : D.reverse.get ⟨n, h₁⟩ ∈ l :=
      ((List.reverse_perm D).trans hpermD).subset (List.get_mem _ _ _)
    have hmem₂ : A.get ⟨n, h₂⟩ ∈ l := hpermA.subset (List.get_mem _ _ _)
    exact hinj hmem₁ hmem₂ hkn
  calc D = D.reverse.reverse := (List.reverse_reverse D).symm
    _ = A.reverse := by rw [hDA]

theorem sortRealms_desc_of_key {β : Type} [LinearOrder β] (c : Column) (k : RealmRow → β)
    (hlt : ∀ a b, SKey.lt (sortValue c a) (sortValue c b) ↔ k a < k b)
    (hkinj : ∀ a b : RealmRow, sortValue c a = sortValue c b ↔ k a = k b)
    (rows : List RealmRow) (hnd : (rows.map (sortValue c)).Nodup) :
    sortRealms rows (some c) .desc = (sortRealms rows (some c) .asc).reverse := by
  obtain ⟨hasc, hdesc⟩ := realmLe_iff_of_lt_iff hlt
  have hnd' : (rows.map k).Nodup := by
    have h1 : rows.Pairwise fun a b => sortValue c a ≠ sortValue c b :=
      List.pairwise_map.mp hnd
    have h2 : rows.Pairwise fun a b => k a ≠ k b :=
      h1.imp fun hab hk => hab ((hkinj _ _).mpr hk)
    exact List.pairwise_map.mpr h2
  show List.insertionSort (realmLe c .desc) rows
      = (List.insertionSort (realmLe c .asc) rows).reverse
  rw [insertionSort_congr (realmLe c .desc) (fun a b => k b ≤ k a) hdesc rows,
    insertionSort_congr (realmLe c .asc) (fun a b => k a ≤ k b) hasc rows,
    insertionSort_flip_eq_reverse k rows hnd']

/-- C5: sorting by the `populationName` column orders rows by the underlying
`populationType` through the rank table `HIGH = 3`, `MEDIUM = 2`, `LOW = 1`,
`FULL = 4`, any unrecognized type ranking `0`: the ascending result is a
permutation of the input that is nondecreasing in rank, and on the four
concrete rows typed `FULL, HIGH, LOW, MEDIUM` the ascending order is
`LOW, MEDIUM, HIGH, FULL`. -/
theorem population_sort_rank_order (rows : List RealmRow) :
    (sortRealms rows (some .populationName) .asc).Perm rows
    ∧ (sortRealms rows (some .populationName) .asc).Pairwise
        (fun a b => popRank a.populationType ≤ popRank b.populationType)
    ∧ (popRank "HIGH" = 3 ∧ popRank "MEDIUM" = 2 ∧ popRank "LOW" = 1 ∧ popRank "FULL" = 4)
    ∧ (∀ t, t ≠ "HIGH" → t ≠ "MEDIUM" → t ≠ "LOW" → t ≠ "FULL" → popRank t = 0)
    ∧ sortRealms [rowFULL, rowHIGH, rowLOW, rowMED] (some .populationName) .asc
        = [rowLOW, rowMED, rowHIGH, rowFULL] := by
  obtain ⟨hasc, _⟩ :=
    realmLe_iff_of_lt_iff (c := .populationName) (k := fun r => popRank r.populationType)
      fun a b => Iff.rfl
  refine ⟨List.perm_insertionSort _ rows, ?_, ⟨by decide, by decide, by decide, by decide⟩,
    ?_, by decide⟩
  · haveI : IsTotal RealmRow (realmLe .populationName .asc) := ⟨fun a b => by
      rcases le_total (popRank a.populationType) (popRank b.populationType) with h | h
      exacts [Or.inl ((hasc a b).mpr h), Or.inr ((hasc b a).mpr h)]⟩
    haveI : IsTrans RealmRow (realmLe .populationName .asc) := ⟨fun a b x hab hbx =>
      (hasc a x).mpr (le_trans ((hasc a b).mp hab) ((hasc b x).mp hbx))⟩
    exact (List.sorted_insertionSort (realmLe .populationName .asc) rows).imp
      fun h => (hasc _ _).mp h
  · intro t h1 h2 h3 h4
    simp [popRank, h1, h2, h3, h4]

/-- C5 witness: the rank-table claim applied at an unrecognized population
type, discharging the inequality hypotheses concretely. -/
theorem population_sort_rank_order_witness : popRank "TURBO" = 0 :=
  (population_sort_rank_order []).2.2.2.1 "TURBO" (by decide) (by decide) (by decide) (by decide)

/-- C8: for every row sequence and every sortable column, if the column's sort
keys are pairwise distinct then sorting descending equals the reversal of
sorting ascending; and for every direction the elements of any one sort-key
tie group appear in the sorted output in their original relative order
(stability in both directions). -/
theorem sort_direction_reverse_and_stability (rows : List RealmRow) (col : Column) :
    ((rows.map (sortValue col)).Nodup →
      sortRealms rows (some col) .desc = (sortRealms rows (some col) .asc).reverse)
    ∧ ∀ (d : SortDirection) (key : SKey),
        (sortRealms rows (some col) d).filter (fun b => sortValue col b == key)
          = rows.filter fun b => sortValue col b == key := by
  constructor
  · intro hnd
    cases col with
    | realmName =>
      exact sortRealms_desc_of_key .realmName (fun r => jsToLower r.realmName)
        (fun a b => Iff.rfl) (fun a b => by simp [sortValue]) rows hnd
    | statusName =>
      exact sortRealms_desc_of_key .statusName
        (fun r => (if r.statusType = "UP" then 1 else 0 : ℕ))
        (fun a b => Iff.rfl) (fun a b => by simp [sortValue]) rows hnd
    | populationName =>
      exact sortRealms_desc_of_key .populationName (fun r => popRank r.populationType)
        (fun a b => Iff.rfl) (fun a b => by simp [sortValue]) rows hnd
    | realmType =>
      exact sortRealms_desc_of_key .realmType (fun r => jsToLower r.realmType)
        (fun a b => Iff.rfl) (fun a b => by simp [sortValue]) rows hnd
  · intro d key
    show (List.insertionSort (realmLe col d) rows).filter (fun b => sortValue col b == key)
        = rows.filter fun b => sortValue col b == key
    apply filter_insertionSort
    intro a _ b _ hpa hpb
    have ha : sortValue col a = key := by simpa using hpa
    have hb : sortValue col b = key := by simpa using hpb
    exact le_of_eq (compareRealms_eq_zero_of_eq col d (ha.trans hb.symm))

/-- C8 witness: the direction-reversal claim applied to four concrete rows
with pairwise distinct population sort keys. -/
theorem sort_direction_reverse_and_stability_witness :
    ([rowFULL, rowHIGH, rowLOW, rowMED].map (sortValue .populationName)).Nodup
    ∧ sortRealms [rowFULL, rowHIGH, rowLOW, rowMED] (some .populationName) .desc
      = (sortRealms [rowFULL, rowHIGH, rowLOW, rowMED] (some .populationName) .asc).reverse :=
  ⟨by decide,
    (sort_direction_reverse_and_stability [rowFULL, rowHIGH, rowLOW, rowMED] .populationName).1
      (by decide)⟩
